import Mathlib

/-!
Verification of the AgentFormer training/evaluation harness (`trainer.py`).

The file shallowly embeds the trainer's pure logic: Python floats are
modelled as rationals, numpy arrays as (nested) lists of rationals,
fallible code as `Except`, and the external callables (`eval_one_seq`,
`stats_func`, `get_metrics_str`, the model) as parameters.
-/

namespace Trainer

/-- Does the second character list occur at the head of the first? -/
def startsWithChars : List Char → List Char → Bool
  | _, [] => true
  | [], _ :: _ => false
  | c :: cs, d :: ds => decide (c = d) && startsWithChars cs ds

/-- Does `sub` occur as a contiguous run inside the list? -/
def hasSubChars (sub : List Char) : List Char → Bool
  | [] => startsWithChars [] sub
  | c :: cs => startsWithChars (c :: cs) sub || hasSubChars sub cs

/-- Python's `sub in s` substring test. -/
def strContains (s sub : String) : Bool := hasSubChars sub.data s.data

/-- Python's `int()` applied to an exact rational: truncation toward
zero, i.e. the numerator `tdiv` the denominator. -/
def pyInt (q : ℚ) : ℤ := Int.tdiv q.num (q.den : ℤ)

/-- Error-propagating map over a list (the semantics shared by Python's
`starmap` consumed to completion and `Pool.starmap`): the first raised
exception aborts the whole map. -/
def tryMap (f : α → Except ε β) : List α → Except ε (List β)
  | [] => .ok []
  | x :: xs =>
    match f x with
    | .error e => .error e
    | .ok y =>
      match tryMap f xs with
      | .error e => .error e
      | .ok ys => .ok (y :: ys)

/-- Error-propagating left fold. -/
def tryFoldl (f : σ → α → Except ε σ) (init : σ) : List α → Except ε σ
  | [] => .ok init
  | x :: xs =>
    match f init x with
    | .error e => .error e
    | .ok s => tryFoldl f s xs

/- ### `AgentFormerTrainer.__init__`, lines 85–86: worker-pool size

`num_workers = int(multiprocessing.cpu_count() / (args.devices + 1e-5))
               if args.devices is not None else float('inf')`
`self.num_workers = min(args.num_workers, num_workers)`

`min` of an int and `float('inf')` is the int, so the `None` branch
yields `args.num_workers` unchanged. -/

/-- The worker count `self.num_workers` that `multiprocessing.Pool` is
opened with in `_epoch_end` (trainer.py lines 85–86 and 160). -/
def trainerNumWorkers (cpuCount : ℕ) (argsNumWorkers : ℤ) (devices : Option ℚ) : ℤ :=
  match devices with
  | none => argsNumWorkers
  | some d => min argsNumWorkers (pyInt ((cpuCount : ℚ) / (d + 1 / 100000)))

/- ### Trainer per-step state (lines 93, 120–128, 130–131, 252–255)

The only per-step storage the trainer object itself holds is
`self.validation_step_outputs`.  `_step` runs the external model and
produces a step-output dictionary; it is abstracted by a function
parameter. -/

/-- The trainer's own mutable per-step storage. -/
structure TrainerState (O : Type) where
  validation_step_outputs : List O
  deriving DecidableEq, Repr

/-- `training_step`: runs `_step` and returns its result; the trainer
state is untouched (trainer.py lines 120–123). -/
def trainingStep (stepFn : B → O) (s : TrainerState O) (b : B) : O × TrainerState O :=
  (stepFn b, s)

/-- `validation_step`: runs `_step` and appends the result to
`self.validation_step_outputs` (trainer.py lines 125–128). -/
def validationStep (stepFn : B → O) (s : TrainerState O) (b : B) : O × TrainerState O :=
  let loss := stepFn b
  (loss, ⟨s.validation_step_outputs ++ [loss]⟩)

/-- `test_step`: runs `_step` (plus optional trajectory saving to disk);
the trainer state is untouched (trainer.py lines 130–153). -/
def testStep (stepFn : B → O) (s : TrainerState O) (b : B) : O × TrainerState O :=
  (stepFn b, s)

/-- The state effect of `on_validation_epoch_end`: after aggregating the
accumulated outputs it clears `self.validation_step_outputs`
(trainer.py lines 252–255). -/
def onValidationEpochEnd (_s : TrainerState O) : TrainerState O :=
  ⟨[]⟩

/- ### `on_load_checkpoint` (lines 260–266)

A checkpoint dictionary is modelled as a record of optional entries for
the keys the method touches.  `global_step` maps to Python `None` when
set, hence `Option (Option V)`.  Reading a missing key raises
`KeyError`; the method mutates the dictionary in place, so the model
returns the dictionary as mutated so far together with the error, if
any. -/

structure Checkpoint (V : Type) where
  model_dict : Option (List (String × V))
  epoch : Option V
  scheduler_dict : Option V
  opt_dict : Option V
  state_dict : Option (List (String × V))
  global_step : Option (Option V)
  lr_schedulers : Option (List V)
  optimizer_states : Option (List V)
  deriving DecidableEq, Repr

inductive CkptErr
  | keyError
  deriving DecidableEq, Repr

/-- `on_load_checkpoint` (trainer.py lines 260–266): when both
`model_dict` and `epoch` are present, rewrite `state_dict`,
`global_step`, `lr_schedulers` and `optimizer_states`; reading the
missing `scheduler_dict` or `opt_dict` raises after the earlier
assignments took effect.  The final `print` reads `checkpoint['epoch']`
and raises when it is absent. -/
def onLoadCheckpoint (c : Checkpoint V) : Checkpoint V × Option CkptErr :=
  match c.model_dict, c.epoch with
  | some md, some _ =>
    let c1 := { c with
      state_dict := some (md.map (fun (kv : String × V) => ("model." ++ kv.1, kv.2)))
      global_step := some none }
    match c1.scheduler_dict with
    | none => (c1, some .keyError)
    | some sd =>
      let c2 := { c1 with lr_schedulers := some [sd] }
      match c2.opt_dict with
      | none => (c2, some .keyError)
      | some od => ({ c2 with optimizer_states := some [od] }, none)
  | _, _ =>
    match c.epoch with
    | none => (c, some .keyError)
    | some _ => (c, none)

/- ### `format_agentformer_trajectories` (lines 36–75)

`data` is the batch dictionary; `fut_data`/`pre_data` are lists, one
entry per timestep, of 2-D numpy arrays of rows (column 1 holds the
track id).  The prediction `trajectory` has shape `(n_agents,
timesteps, 2)`.  Errors mirror Python's: out-of-range indexing is
`IndexError`; writing into a "squeezed" match that is not exactly one
row fails; an unrecognized dataset raises `NotImplementedError`;
`np.vstack` on rows of unequal widths raises `ValueError`. -/

structure SeqData where
  valid_id : List ℚ
  pred_mask : Option (List ℚ)
  fut_data : List (List (List ℚ))
  pre_data : List (List (List ℚ))
  deriving Repr

inductive FmtErr
  | indexError
  | notImplemented
  | badSqueeze
  | valueError
  deriving DecidableEq, Repr

/-- Datasets handled by the first branch of the column-write dispatch
(trainer.py lines 50–53). -/
def ethBranchDatasets : List String :=
  ["eth", "hotel", "univ", "zara1", "zara2", "gen", "real_gen", "adversarial"]

/-- Datasets whose formatted output is reduced to the four columns
`[0, 1, 13, 15]` (trainer.py line 66). -/
def ethSelectDatasets : List String := ["eth", "hotel", "univ", "zara1", "zara2"]

/-- `updated_data[[c1, c2]] = [x, y]`: numpy raises `IndexError` when an
index is out of range, otherwise writes both positions. -/
def setCols (row : List ℚ) (c1 c2 : ℕ) (v : ℚ × ℚ) : Except FmtErr (List ℚ) :=
  if c1 < row.length ∧ c2 < row.length then
    .ok ((row.set c1 v.1).set c2 v.2)
  else
    .error .indexError

/-- The body of the inner timestep loop for agent `i` at step `j`
(trainer.py lines 43–60): select `fut_data[j]` or `pre_data[j]`, filter
the rows whose column 1 equals the track id, squeeze, and write the
predicted position into the dataset-specific columns. -/
def formatCell (dataset : String) (traj : List (List (ℚ × ℚ))) (data : SeqData)
    (future : Bool) (i j : ℕ) : Except FmtErr (List ℚ) :=
  let tid := data.valid_id.getD i 0
  let src := if future then data.fut_data else data.pre_data
  match src[j]? with
  | none => .error .indexError
  | some curr_data =>
    let matched := curr_data.filter (fun r => decide (r.getD 1 0 = tid))
    if dataset ∈ ethBranchDatasets then
      match (traj[i]?).bind (fun row => row[j]?) with
      | none => .error .indexError
      | some xy =>
        match matched with
        | [row] => setCols row 13 15 xy
        | _ => .error .badSqueeze
    else if strContains dataset "sdd" then
      match (traj[i]?).bind (fun row => row[j]?) with
      | none => .error .indexError
      | some xy =>
        match matched with
        | [row] => setCols row 2 3 xy
        | _ => .error .badSqueeze
    else
      .error .notImplemented

/-- One turn of the agent loop (trainer.py lines 40–60) for agent `i`,
with `acc` the rows accumulated so far: agents whose `pred_mask` entry
differs from `1.0` are skipped (a missing entry is an `IndexError`);
a kept agent appends one updated row per timestep. -/
def formatStep (dataset : String) (traj : List (List (ℚ × ℚ))) (data : SeqData)
    (future : Bool) (timesteps : ℕ) (acc : List (List ℚ)) (i : ℕ) :
    Except FmtErr (List (List ℚ)) :=
  let skipRes : Except FmtErr Bool :=
    match data.pred_mask with
    | none => .ok false
    | some m =>
      match (m[i]? : Option ℚ) with
      | none => .error .indexError
      | some v => .ok (decide (¬ v = 1))
  match skipRes with
  | .error e => .error e
  | .ok true => .ok acc
  | .ok false =>
    match tryMap (fun j => formatCell dataset traj data future i j) (List.range timesteps) with
    | .error e => .error e
    | .ok rows => .ok (acc ++ rows)

/-- The agent loop of `format_agentformer_trajectories` (trainer.py
lines 40–60), in agent order. -/
def formatLoop (dataset : String) (traj : List (List (ℚ × ℚ))) (data : SeqData)
    (future : Bool) (timesteps : ℕ) : Except FmtErr (List (List ℚ)) :=
  tryFoldl (formatStep dataset traj data future timesteps) [] (List.range data.valid_id.length)

/-- `format_agentformer_trajectories` (trainer.py lines 36–75).  With
`future=False` the trajectory is flipped along both axes first and the
result rows are reversed at the end. -/
def formatAgentformerTrajectories (trajectory : List (List (ℚ × ℚ))) (data : SeqData)
    (dataset : String) (timesteps : ℕ := 12) (frameScale : ℚ := 10)
    (future : Bool := true) : Except FmtErr (List (List ℚ)) :=
  let traj := if future then trajectory else (trajectory.map List.reverse).reverse
  match formatLoop dataset traj data future timesteps with
  | .error e => .error e
  | .ok [] => .ok []
  | .ok (first :: rest) =>
    if rest.all (fun r => r.length = first.length) then
      let out :=
        if dataset ∈ ethSelectDatasets then
          (first :: rest).map (fun r =>
            [r.getD 0 0 * frameScale, r.getD 1 0, r.getD 13 0, r.getD 15 0])
        else if dataset = "trajnet_sdd" then
          (first :: rest).map (fun r =>
            match r with
            | [] => []
            | c0 :: cs => (c0 * frameScale) :: cs)
        else
          first :: rest
      .ok (if future then out else out.reverse)
    else
      .error .valueError

/-- The `pred_mask` filter of trainer.py line 41: agent `i` is kept when
the mask is absent or its entry equals `1.0` (entry lookup assumed in
range). -/
def maskKeep (mask : Option (List ℚ)) (i : ℕ) : Bool :=
  match mask with
  | none => true
  | some m => decide (m.getD i 0 = 1)

/-- The future-data rows matching agent `i` at timestep `j`
(trainer.py line 49): the rows of `fut_data[j]` whose column 1 equals
`valid_id[i]`. -/
def matchedFutRows (data : SeqData) (i j : ℕ) : List (List ℚ) :=
  (data.fut_data.getD j []).filter (fun r => decide (r.getD 1 0 = data.valid_id.getD i 0))

/- ### `configure_optimizers` scheduler dispatch (lines 268–276) -/

inductive SchedulerPolicy
  | lambdaPolicy
  | stepPolicy
  deriving DecidableEq, Repr

inductive OptErr
  | unknownScheduler
  deriving DecidableEq, Repr

/-- The `lr_scheduler` dispatch of `configure_optimizers` (trainer.py
lines 270–276): `'linear'` selects the lambda policy, `'step'` the step
policy, anything else raises `ValueError('unknown scheduler type!')`. -/
def configureScheduler (schedulerType : String) : Except OptErr SchedulerPolicy :=
  if schedulerType = "linear" then .ok .lambdaPolicy
  else if schedulerType = "step" then .ok .stepPolicy
  else .error .unknownScheduler

/- ### `_epoch_end` (lines 155–193)

`eval_one_seq` (imported from `eval`) and `stats_func` (imported from
`metrics`) are external: they are parameters of the embedding.  A step
output dictionary carries the tensors `_step` produced; `gt_motion` has
shape `(n_agents, timesteps, 2)` and `pred_motion` has shape
`(n_agents, n_samples, timesteps, 2)`. -/

structure StepOut where
  frame : ℕ
  seq : String
  obs_motion : List (List (ℚ × ℚ))
  gt_motion : List (List (ℚ × ℚ))
  pred_motion : List (List (List (ℚ × ℚ)))

/-- The 4-tuple `eval_one_seq` returns for one sequence: per-key metric
values, per-sample metric values, argmin indices, collision matrices. -/
structure EvalOut where
  metrics : List ℚ
  sampleVals : List (String × List ℚ)
  argmin : List ℕ
  collMats : List (List (List Bool))

inductive EpochErr (E : Type)
  | unpack
  | evalErr (e : E)

/-- `Pool._map_async` chunking in CPython: `divmod(len(iterable),
len(self._pool) * 4)`, rounding up when there is a remainder. -/
def poolChunkSize (nTasks nWorkers : ℕ) : ℕ :=
  if nTasks % (nWorkers * 4) = 0 then nTasks / (nWorkers * 4)
  else nTasks / (nWorkers * 4) + 1

/-- Split a list into chunks of `max n 1` elements (the task batches a
`Pool` hands to its workers, in submission order). -/
def chunked (n : ℕ) : List α → List (List α)
  | [] => []
  | x :: xs => (x :: xs.take (max n 1 - 1)) :: chunked n (xs.drop (max n 1 - 1))
termination_by l => l.length
decreasing_by
  simp only [List.length_cons, List.length_drop]
  omega

/-- `Pool.starmap`: the tasks are chunked, each chunk is mapped in
order, results are concatenated in task order; a worker exception is
re-raised at the collection point. -/
def poolStarmap (chunk : ℕ) (f : α → Except ε β) (xs : List α) : Except ε (List β) :=
  match tryMap (fun c => tryMap f c) (chunked chunk xs) with
  | .error e => .error e
  | .ok rs => .ok rs.flatten

/-- Length of the shortest member, `0` for the empty list: the number
of tuples Python's `zip(*ls)` yields. -/
def minLen : List (List α) → ℕ
  | [] => 0
  | [l] => l.length
  | l :: ls => min l.length (minLen ls)

/-- Python's `zip(*ls)` for a non-empty `ls` of rational lists. -/
def zipStar (ls : List (List ℚ)) : List (List ℚ) :=
  (List.range (minLen ls)).map (fun i => ls.map (fun l => l.getD i 0))

/-- `_epoch_end` (trainer.py lines 155–179) up to the aggregated
`results_dict`, which the remainder of the method prints (in test mode)
and logs.  `eval1` abstracts `eval_one_seq` and `statsKeys` abstracts
`stats_func.keys()`.  `args.mp` chooses `Pool.starmap` over the bounded
worker pool; otherwise `itertools.starmap` is consumed at the
`zip(*all_metrics)` unpacking.  Unpacking the empty iterator into four
names raises `ValueError`. -/
def epochEnd
    (eval1 : List (List (List (ℚ × ℚ))) → List (List (ℚ × ℚ)) → ℚ → Bool → Except E EvalOut)
    (statsKeys : List String) (mp : Bool) (numWorkers : ℕ) (saveViz : Bool)
    (collisionRad : ℚ) (outputs : List StepOut) :
    Except (EpochErr E) (List (String × ℚ)) :=
  let argsList := outputs.map (fun o => (o.pred_motion, o.gt_motion))
  let evalRes :=
    if mp then
      poolStarmap (poolChunkSize argsList.length numWorkers)
        (fun p => eval1 p.1 p.2 collisionRad saveViz) argsList
    else
      tryMap (fun p => eval1 p.1 p.2 collisionRad saveViz) argsList
  match evalRes with
  | .error e => .error (.evalErr e)
  | .ok [] => .error .unpack
  | .ok (m0 :: ms) =>
    let allMetrics := (m0 :: ms).map EvalOut.metrics
    let numAgentPerSeq := outputs.map (fun o => (o.gt_motion.length : ℚ))
    .ok ((statsKeys.zip (zipStar allMetrics)).map (fun kv =>
      (kv.1,
        if strContains kv.1 "_joint" || strContains kv.1 "CR" then
          kv.2.sum / (kv.2.length : ℚ)
        else
          (List.zipWith (fun v n => v * n) kv.2 numAgentPerSeq).sum / numAgentPerSeq.sum)))

/- Spec-side aggregation formulas, written from the claim's words. -/

/-- Spec wording: the unweighted mean of the per-sequence values. -/
def specUnweightedMean (vals : List ℚ) : ℚ := vals.sum / (vals.length : ℚ)

/-- Spec wording: the per-sequence values weighted by each sequence's
agent count and divided by the total number of agents. -/
def specAgentWeightedMean (vals counts : List ℚ) : ℚ :=
  (List.zipWith (fun v n => v * n) vals counts).sum / counts.sum

/- ### `_save_viz` (lines 195–244)

The method builds one plot-argument bundle per (output, sample-values)
pair and dispatches them to `plot_anim_grid` (external).  Tensor
reshapes use numpy's axis semantics on rectangular nested lists.
`get_metrics_str` (external) is a parameter. -/

/-- A collision matrix, as one entry of a sequence's collision-matrix
list. -/
def CollMat : Type := List (List Bool)

/-- numpy `swapaxes(0, 1)` on a rectangular 2-D nested list. -/
def swapAxes01 (m : List (List (ℚ × ℚ))) : List (List (ℚ × ℚ)) :=
  (List.range (m.headD []).length).map (fun j => m.map (fun row => row.getD j (0, 0)))

/-- numpy `transpose(1, 2, 0, 3)` on `pred_motion` of shape
`(n_peds, n_samples, ts, 2)`, giving `(n_samples, ts, n_peds, 2)`. -/
def predTranspose (p : List (List (List (ℚ × ℚ)))) : List (List (List (ℚ × ℚ))) :=
  (List.range (p.headD []).length).map (fun s =>
    (List.range ((p.headD []).headD []).length).map (fun t =>
      (List.range p.length).map (fun i => ((p.getD i []).getD s []).getD t (0, 0))))

/-- `np.argmin`: index of the first minimum of a non-empty list. -/
def argminList : List ℚ → ℕ
  | [] => 0
  | [_] => 0
  | x :: y :: xs =>
    let j := argminList (y :: xs)
    if x ≤ (y :: xs).getD j 0 then 0 else j + 1

/-- Zero-padded 6-digit rendering, Python's `f"{frame:06d}"` for a
natural number. -/
def pad6 (n : ℕ) : String :=
  let s := toString n
  String.mk (List.replicate (6 - s.length) '0') ++ s

inductive VizErr
  | assertionFailed
  | keyError
  | valueError
  | indexError
  deriving DecidableEq, Repr

/-- One `args_dict` appended to `plot_args_list` (trainer.py lines
218–224 and 229–236); the best-mSADE dict carries no `highlight_peds`
key. -/
structure VizArgsDict where
  plot_title : String
  obs_traj : List (List (ℚ × ℚ))
  pred_traj_gt : List (List (ℚ × ℚ))
  pred_traj_fake : List (List (ℚ × ℚ))
  collision_mats : CollMat
  bkg_img_path : Option String
  text_fixed : String
  highlight_peds : Option (List ℕ)

/-- One entry of `seq_to_plot_args`: the positional arguments handed to
`plot_anim_grid` for one sequence. -/
structure PlotSeq where
  anim_save_fn : String
  title : String
  grid : ℕ × ℕ
  dicts : List VizArgsDict

/-- The body of the `_save_viz` loop for position `frame_i` (trainer.py
lines 197–238): assert the observed trajectory has 8 timesteps, reshape
the tensors, pick the best-mSADE sample, and build one `args_dict` per
remaining sample. -/
def processOneViz (gms : List (String × List ℚ) → ℕ → String)
    (modelName : String) (epoch : ℕ) (datasetName tag : String)
    (argmins : List (List ℕ)) (collisionMats : List (List CollMat))
    (frameI : ℕ) (output : StepOut) (sv : List (String × List ℚ)) :
    Except VizErr PlotSeq :=
  let frame := output.frame
  let seq := output.seq
  let obsTraj := output.obs_motion
  if obsTraj.length = 8 then
    let predGtTraj := swapAxes01 output.gt_motion
    let predFakeTraj := predTranspose output.pred_motion
    let numSamples := predFakeTraj.length
    let animSaveFn := "viz/" ++ seq ++ "/frame_" ++ pad6 frame ++ "/" ++ modelName ++
      "_epoch-" ++ toString epoch ++ "_" ++ tag ++ ".mp4"
    let title := "Seq: " ++ seq ++ " frame: " ++ toString frame ++ " Epoch: " ++ toString epoch
    let bkgImgPath :=
      if datasetName = "trajnet_sdd" then
        some ("datasets/trajnet_sdd/reference_img/" ++ seq.dropRight 2 ++ "/video" ++
          seq.takeRight 1 ++ "/reference.jpg")
      else none
    match sv.find? (fun p => p.1 = "ADE") with
    | none => .error .keyError
    | some adePair =>
      match adePair.2 with
      | [] => .error .valueError
      | a0 :: as0 =>
        let sadeMinI := argminList (a0 :: as0)
        match predFakeTraj[sadeMinI]? with
        | none => .error .indexError
        | some predFakeTrajMin =>
          let minSadeStats := gms sv sadeMinI
          match collisionMats[frameI]? with
          | none => .error .indexError
          | some seqCollMats =>
            match seqCollMats.getLast? with
            | none => .error .indexError
            | some lastColl =>
              let firstDict : VizArgsDict :=
                { plot_title := "best mSADE sample"
                  obs_traj := obsTraj
                  pred_traj_gt := predGtTraj
                  pred_traj_fake := predFakeTrajMin
                  collision_mats := lastColl
                  bkg_img_path := bkgImgPath
                  text_fixed := minSadeStats
                  highlight_peds := none }
              match tryMap (fun sampleI =>
                  let stats := gms sv sampleI
                  match argmins[frameI]? with
                  | none => Except.error VizErr.indexError
                  | some hl =>
                    match seqCollMats[sampleI]? with
                    | none => Except.error VizErr.indexError
                    | some cm =>
                      Except.ok
                        { plot_title := "Sample " ++ toString sampleI
                          obs_traj := obsTraj
                          pred_traj_gt := predGtTraj
                          pred_traj_fake := predFakeTraj.getD sampleI []
                          collision_mats := cm
                          bkg_img_path := bkgImgPath
                          text_fixed := stats
                          highlight_peds := some hl })
                (List.range (numSamples - 1)) with
              | .error e => .error e
              | .ok sampleDicts =>
                .ok { anim_save_fn := animSaveFn
                      title := title
                      grid := (5, 4)
                      dicts := firstDict :: sampleDicts }
  else
    .error .assertionFailed

/-- The `_save_viz` loop over `zip(outputs, all_sample_vals)` with the
running index `frame_i`. -/
def saveVizLoop (gms : List (String × List ℚ) → ℕ → String)
    (modelName : String) (epoch : ℕ) (datasetName tag : String)
    (argmins : List (List ℕ)) (collisionMats : List (List CollMat)) :
    ℕ → List (StepOut × List (String × List ℚ)) → Except VizErr (List PlotSeq)
  | _, [] => .ok []
  | i, p :: rest =>
    match processOneViz gms modelName epoch datasetName tag argmins collisionMats i p.1 p.2 with
    | .error e => .error e
    | .ok a =>
      match saveVizLoop gms modelName epoch datasetName tag argmins collisionMats (i + 1) rest with
      | .error e => .error e
      | .ok bs => .ok (a :: bs)

/-- `_save_viz` (trainer.py lines 195–244): the plot-argument bundles
built and dispatched to `plot_anim_grid` (sequentially or through the
pool, which does not change the bundles). -/
def saveViz (gms : List (String × List ℚ) → ℕ → String)
    (modelName : String) (epoch : ℕ) (datasetName tag : String)
    (outputs : List StepOut) (allSampleVals : List (List (String × List ℚ)))
    (argmins : List (List ℕ)) (collisionMats : List (List CollMat)) :
    Except VizErr (List PlotSeq) :=
  saveVizLoop gms modelName epoch datasetName tag argmins collisionMats 0
    (outputs.zip allSampleVals)

/- ### Combinator lemmas -/

theorem tryMap_ok_of_all {f : α → Except ε β} {g : α → β} :
    ∀ l : List α, (∀ x ∈ l, f x = .ok (g x)) → tryMap f l = .ok (l.map g) := by
  intro l h
  induction l with
  | nil => rfl
  | cons x xs ih =>
    have hx := h x (List.mem_cons_self x xs)
    have ht := ih (fun y hy => h y (List.mem_cons_of_mem x hy))
    simp [tryMap, hx, ht]

theorem tryMap_ok_length {f : α → Except ε β} :
    ∀ {l : List α} {ys : List β}, tryMap f l = .ok ys → ys.length = l.length := by
  intro l
  induction l with
  | nil => intro ys h; simp [tryMap] at h; simp [← h]
  | cons x xs ih =>
    intro ys h
    simp only [tryMap] at h
    cases hx : f x with
    | error e => rw [hx] at h; exact absurd h (by simp)
    | ok y =>
      rw [hx] at h
      cases ht : tryMap f xs with
      | error e => rw [ht] at h; exact absurd h (by simp)
      | ok zs =>
        rw [ht] at h
        cases h
        simp [ih ht]

theorem tryMap_error_of_mem {f : α → Except ε β} :
    ∀ {l : List α} {x : α}, x ∈ l → (∃ e, f x = .error e) →
      ∃ e, tryMap f l = .error e := by
  intro l
  induction l with
  | nil => intro x hx; exact absurd hx (by simp)
  | cons y ys ih =>
    intro x hx he
    cases hy : f y with
    | error e => exact ⟨e, by simp [tryMap, hy]⟩
    | ok v =>
      rcases List.mem_cons.mp hx with h | h
      · subst h
        rcases he with ⟨e, he⟩
        rw [he] at hy
        exact absurd hy (by simp)
      · rcases ih h he with ⟨e, ht⟩
        exact ⟨e, by simp [tryMap, hy, ht]⟩

theorem tryMap_append {f : α → Except ε β} (a b : List α) :
    tryMap f (a ++ b) =
      match tryMap f a with
      | .error e => .error e
      | .ok ys =>
        match tryMap f b with
        | .error e => .error e
        | .ok zs => .ok (ys ++ zs) := by
  induction a with
  | nil =>
    simp only [List.nil_append, tryMap]
    cases tryMap f b <;> rfl
  | cons x a ih =>
    show tryMap f (x :: (a ++ b)) = _
    simp only [tryMap]
    cases f x with
    | error e => rfl
    | ok y =>
      rw [ih]
      cases tryMap f a with
      | error e => rfl
      | ok ys =>
        cases tryMap f b <;> rfl

theorem poolStarmap_eq_tryMap (chunk : ℕ) (f : α → Except ε β) (xs : List α) :
    poolStarmap chunk f xs = tryMap f xs := by
  have H : ∀ (m : ℕ) (l : List α), l.length ≤ m → poolStarmap chunk f l = tryMap f l := by
    intro m
    induction m with
    | zero =>
      intro l hl
      have hnil : l = [] := List.eq_nil_of_length_eq_zero (Nat.le_zero.mp hl)
      subst hnil
      simp [poolStarmap, chunked, tryMap]
    | succ m ih =>
      intro l hl
      cases l with
      | nil => simp [poolStarmap, chunked, tryMap]
      | cons x t =>
        have hlen : (t.drop (max chunk 1 - 1)).length ≤ m := by
          have hl' := Nat.le_of_succ_le_succ hl
          simp only [List.length_drop]
          omega
        have hrec := ih (t.drop (max chunk 1 - 1)) hlen
        have hch : chunked chunk (x :: t)
            = (x :: t.take (max chunk 1 - 1)) :: chunked chunk (t.drop (max chunk 1 - 1)) := by
          simp [chunked]
        have hsplit : x :: t = (x :: t.take (max chunk 1 - 1)) ++ t.drop (max chunk 1 - 1) := by
          rw [List.cons_append, List.take_append_drop]
        have hcons : ∀ (c1 : List α) (rest : List (List α)),
            tryMap (fun c => tryMap f c) (c1 :: rest) =
              match tryMap f c1 with
              | Except.error e => Except.error e
              | Except.ok y =>
                match tryMap (fun c => tryMap f c) rest with
                | Except.error e => Except.error e
                | Except.ok ys => Except.ok (y :: ys) := by
          intro c1 rest
          simp only [tryMap]
          cases tryMap f c1 with
          | error e => rfl
          | ok y => cases tryMap (fun c => tryMap f c) rest <;> rfl
        unfold poolStarmap
        rw [hch]
        conv_rhs => rw [hsplit, tryMap_append]
        rw [hcons]
        cases h1 : tryMap f (x :: t.take (max chunk 1 - 1)) with
        | error e => simp
        | ok ys =>
          unfold poolStarmap at hrec
          cases h2 : tryMap (fun c => tryMap f c) (chunked chunk (t.drop (max chunk 1 - 1))) with
          | error e =>
            simp only [h2] at hrec
            rw [← hrec]
          | ok rs =>
            simp only [h2] at hrec
            rw [← hrec]
            simp
  exact H xs.length xs (Nat.le_refl _)

theorem tryFoldl_ok_of_all {f : σ → α → Except ε σ} {g : σ → α → σ} :
    ∀ (l : List α) (acc : σ), (∀ s x, x ∈ l → f s x = .ok (g s x)) →
      tryFoldl f acc l = .ok (l.foldl g acc) := by
  intro l
  induction l with
  | nil => intro acc _; rfl
  | cons x xs ih =>
    intro acc h
    have hx := h acc x (List.mem_cons_self x xs)
    simp only [tryFoldl, hx, List.foldl_cons]
    exact ih (g acc x) (fun s y hy => h s y (List.mem_cons_of_mem x hy))

theorem tryFoldl_error_skip {f : σ → α → Except ε σ} {err : ε} :
    ∀ (l : List α), (∀ s x, x ∈ l → f s x = .ok s ∨ f s x = .error err) →
      (∃ x ∈ l, ∀ s, f s x = .error err) →
      ∀ acc, tryFoldl f acc l = .error err := by
  intro l
  induction l with
  | nil =>
    intro _ hex acc
    rcases hex with ⟨x, hx, _⟩
    exact absurd hx (by simp)
  | cons y ys ih =>
    intro hall hex acc
    rcases hex with ⟨x, hx, hxe⟩
    rcases List.mem_cons.mp hx with h | h
    · subst h
      simp [tryFoldl, hxe acc]
    · rcases hall acc y (List.mem_cons_self y ys) with hy | hy
      · simp only [tryFoldl, hy]
        exact ih (fun s z hz => hall s z (List.mem_cons_of_mem y hz)) ⟨x, h, hxe⟩ acc
      · simp [tryFoldl, hy]

theorem foldl_filter_flatten (keep : α → Bool) (rows : α → List β) :
    ∀ (l : List α) (acc : List β),
      l.foldl (fun s x => if keep x then s ++ rows x else s) acc
        = acc ++ ((l.filter keep).map rows).flatten := by
  intro l
  induction l with
  | nil => intro acc; simp
  | cons x xs ih =>
    intro acc
    by_cases hx : keep x
    · simp [hx, ih, List.append_assoc]
    · simp [hx, ih]

/- ### Claim theorems -/

/-- C3, counterexample: with 8 CPUs, 2 devices and `args.num_workers =
100`, the pool is opened with `min(100, int(8 / (2 + 1e-5))) = 3`
workers, not `8 / 2 = 4` as the claim states. -/
theorem claim_C3_counterexample :
    Trainer.trainerNumWorkers 8 100 (some 2) ≠ ((8 : ℤ) / 2) := by
  show min (100 : ℤ) (pyInt ((8 : ℚ) / (2 + 1 / 100000))) ≠ (8 : ℤ) / 2
  unfold pyInt
  norm_num
  decide

/-- C3, amended: the pool worker count equals the minimum of
`args.num_workers` and `int(cpu_count / (devices + 1e-5))`; for a
positive device count this is at most
`min(args.num_workers, cpu_count // devices)`. -/
theorem claim_C3_amended (cpu : ℕ) (nw : ℤ) (d : ℚ) (hd : 0 < d) :
    Trainer.trainerNumWorkers cpu nw (some d)
        = min nw (pyInt ((cpu : ℚ) / (d + 1 / 100000))) ∧
      Trainer.trainerNumWorkers cpu nw (some d) ≤ min nw ⌊(cpu : ℚ) / d⌋ := by
  constructor
  · rfl
  · show min nw (pyInt ((cpu : ℚ) / (d + 1 / 100000))) ≤ min nw ⌊(cpu : ℚ) / d⌋
    apply min_le_min (le_refl nw)
    have hq : (0 : ℚ) ≤ (cpu : ℚ) / (d + 1 / 100000) := by positivity
    have h1 : pyInt ((cpu : ℚ) / (d + 1 / 100000)) = ⌊(cpu : ℚ) / (d + 1 / 100000)⌋ := by
      unfold pyInt
      obtain ⟨n, hn⟩ := Int.eq_ofNat_of_zero_le (Rat.num_nonneg.mpr hq)
      rw [Rat.floor_def, hn]
      show ((n / ((cpu : ℚ) / (d + 1 / 100000)).den : ℕ) : ℤ) = _
      rw [Int.natCast_ediv]
      rfl
    rw [h1]
    apply Int.floor_le_floor
    apply div_le_div_of_nonneg_left (by positivity) hd
    linarith

/-- C3, witness for the amended theorem at cpu 8, `num_workers` 100,
devices 2. -/
theorem claim_C3_amended_witness :
    Trainer.trainerNumWorkers 8 100 (some 2)
        = min 100 (Trainer.pyInt ((8 : ℚ) / (2 + 1 / 100000))) ∧
      Trainer.trainerNumWorkers 8 100 (some 2) ≤ min 100 ⌊(8 : ℚ) / 2⌋ :=
  claim_C3_amended 8 100 2 (by norm_num)

/-- C6, counterexample: a completed `validation_step` leaves its step
output inside `self.validation_step_outputs`, so the trainer does
retain per-step data in its own state. -/
theorem claim_C6_counterexample :
    (Trainer.validationStep (fun _ : ℕ => (0 : ℕ)) ⟨[]⟩ 0).2.validation_step_outputs ≠ [] := by
  simp [Trainer.validationStep]

/-- C6, amended: `training_step` and `test_step` leave the trainer
state unchanged, but `validation_step` appends its step output to
`self.validation_step_outputs`, which is retained until
`on_validation_epoch_end` clears it. -/
theorem claim_C6_amended (B O : Type) (f : B → O) (s : Trainer.TrainerState O) (b : B) :
    (Trainer.trainingStep f s b).2 = s ∧
      (Trainer.testStep f s b).2 = s ∧
      (Trainer.validationStep f s b).2.validation_step_outputs
        = s.validation_step_outputs ++ [f b] ∧
      (Trainer.onValidationEpochEnd s).validation_step_outputs = [] :=
  ⟨rfl, rfl, rfl, rfl⟩

/-- C8: when `model_dict` and `epoch` (and the `scheduler_dict` and
`opt_dict` they are stored with) are present, `on_load_checkpoint`
rewrites `state_dict` to the `model.`-prefixed entries, sets
`global_step` to `None` and wraps the scheduler and optimizer states in
one-element lists; when `model_dict` or `epoch` is missing, none of
those four entries change. -/
theorem claim_C8 (V : Type) (c : Trainer.Checkpoint V) (md : List (String × V)) (e sd od : V) :
    (c.model_dict = some md → c.epoch = some e → c.scheduler_dict = some sd →
        c.opt_dict = some od →
      Trainer.onLoadCheckpoint c =
        ({ c with
            state_dict := some (md.map (fun kv : String × V => ("model." ++ kv.1, kv.2)))
            global_step := some none
            lr_schedulers := some [sd]
            optimizer_states := some [od] }, none)) ∧
    ((c.model_dict = none ∨ c.epoch = none) →
      (Trainer.onLoadCheckpoint c).1.state_dict = c.state_dict ∧
        (Trainer.onLoadCheckpoint c).1.global_step = c.global_step ∧
        (Trainer.onLoadCheckpoint c).1.lr_schedulers = c.lr_schedulers ∧
        (Trainer.onLoadCheckpoint c).1.optimizer_states = c.optimizer_states) := by
  constructor
  · intro h1 h2 h3 h4
    simp [Trainer.onLoadCheckpoint, h1, h2, h3, h4]
  · intro h
    have : c.model_dict = none ∨ (∃ md0, c.model_dict = some md0 ∧ c.epoch = none) := by
      rcases h with h | h
      · exact Or.inl h
      · cases hm : c.model_dict with
        | none => exact Or.inl rfl
        | some md0 => exact Or.inr ⟨md0, rfl, h⟩
    rcases this with h' | ⟨md0, hm, he⟩
    · cases he : c.epoch <;> simp [Trainer.onLoadCheckpoint, h', he]
    · simp [Trainer.onLoadCheckpoint, hm, he]

/-- C8, witness: a checkpoint with all four source keys present is
rewritten as described, and one lacking `model_dict` is left with its
entries untouched. -/
theorem claim_C8_witness :
    (Trainer.onLoadCheckpoint
        { model_dict := some [("w", (1 : ℕ))], epoch := some 5, scheduler_dict := some 7
          opt_dict := some 9, state_dict := none, global_step := none
          lr_schedulers := none, optimizer_states := none } =
      ({ model_dict := some [("w", (1 : ℕ))], epoch := some 5, scheduler_dict := some 7
         opt_dict := some 9, state_dict := some [("model.w", 1)]
         global_step := some none, lr_schedulers := some [7]
         optimizer_states := some [9] }, none)) ∧
    ((Trainer.onLoadCheckpoint
        { model_dict := none, epoch := some 5, scheduler_dict := some 7
          opt_dict := some 9, state_dict := some [("x", (2 : ℕ))], global_step := none
          lr_schedulers := none, optimizer_states := none }).1.state_dict
      = some [("x", 2)]) :=
  ⟨(claim_C8 ℕ _ [("w", 1)] 5 7 9).1 rfl rfl rfl rfl,
   ((claim_C8 ℕ _ [] 0 0 0).2 (Or.inl rfl)).1⟩

theorem foldl_const (l : List α) (acc : σ) : l.foldl (fun s _ => s) acc = acc := by
  induction l generalizing acc with
  | nil => rfl
  | cons x xs ih => simp [List.foldl_cons, ih]

/-- C2: `_epoch_end` aggregates identically whether `args.mp` selects
the multiprocessing pool or the sequential `starmap`: the chunked,
order-preserving pool map equals the plain error-propagating map, and
everything downstream of it coincides. -/
theorem claim_C2 (E : Type)
    (eval1 : List (List (List (ℚ × ℚ))) → List (List (ℚ × ℚ)) → ℚ → Bool → Except E EvalOut)
    (statsKeys : List String) (nw : ℕ) (viz : Bool) (rad : ℚ) (outputs : List StepOut) :
    epochEnd eval1 statsKeys true nw viz rad outputs
      = epochEnd eval1 statsKeys false nw viz rad outputs := by
  simp [epochEnd, poolStarmap_eq_tryMap]

/-- C7: if `eval_one_seq` fails on any sequence of the input list,
`_epoch_end` propagates that failure (under either `args.mp` setting)
and produces no aggregated results dictionary. -/
theorem claim_C7 (E : Type)
    (eval1 : List (List (List (ℚ × ℚ))) → List (List (ℚ × ℚ)) → ℚ → Bool → Except E EvalOut)
    (statsKeys : List String) (mp : Bool) (nw : ℕ) (viz : Bool) (rad : ℚ)
    (outputs : List StepOut)
    (h : ∃ o ∈ outputs, ∃ e, eval1 o.pred_motion o.gt_motion rad viz = Except.error e) :
    ∃ e, epochEnd eval1 statsKeys mp nw viz rad outputs
      = Except.error (EpochErr.evalErr e) := by
  rcases h with ⟨o, ho, e0, he⟩
  have hmem : (o.pred_motion, o.gt_motion)
      ∈ outputs.map (fun o => (o.pred_motion, o.gt_motion)) :=
    List.mem_map_of_mem _ ho
  rcases tryMap_error_of_mem (f := fun p => eval1 p.1 p.2 rad viz) hmem ⟨e0, he⟩ with ⟨e, hte⟩
  refine ⟨e, ?_⟩
  unfold epochEnd
  cases mp <;> simp [poolStarmap_eq_tryMap, hte]

/-- C7, witness: one sequence whose evaluation fails makes the whole
epoch aggregation fail. -/
theorem claim_C7_witness :
    (∃ o ∈ [(⟨0, "s", [], [], []⟩ : StepOut)], ∃ e,
        (fun _ _ _ _ => (Except.error "boom" : Except String EvalOut))
          o.pred_motion o.gt_motion (1 : ℚ) false = Except.error e) ∧
      ∃ e, epochEnd (fun _ _ _ _ => (Except.error "boom" : Except String EvalOut))
          ["ADE"] true 2 false 1 [⟨0, "s", [], [], []⟩]
        = Except.error (EpochErr.evalErr e) :=
  ⟨⟨⟨0, "s", [], [], []⟩, by simp, "boom", rfl⟩,
   claim_C7 String _ ["ADE"] true 2 false 1 _ ⟨⟨0, "s", [], [], []⟩, by simp, "boom", rfl⟩⟩

/-- C5: an unrecognized dataset makes `format_agentformer_trajectories`
raise `NotImplementedError` as soon as one agent passes the `pred_mask`
filter and there is at least one timestep (with the future data holding
that timestep), and `configure_optimizers` rejects any `lr_scheduler`
other than `'linear'` and `'step'`. -/
theorem claim_C5 :
    (∀ (traj : List (List (ℚ × ℚ))) (data : SeqData) (dataset : String)
        (timesteps : ℕ) (fs : ℚ),
      dataset ∉ ethBranchDatasets →
      strContains dataset "sdd" = false →
      (∀ m, data.pred_mask = some m → data.valid_id.length ≤ m.length) →
      (∃ i, i < data.valid_id.length ∧ ∀ m, data.pred_mask = some m → m.getD i 0 = 1) →
      1 ≤ timesteps →
      timesteps ≤ data.fut_data.length →
      formatAgentformerTrajectories traj data dataset timesteps fs true
        = .error .notImplemented) ∧
    (∀ t : String, t ≠ "linear" → t ≠ "step" →
      configureScheduler t = .error .unknownScheduler) := by
  constructor
  · intro traj data dataset timesteps fs hd hsdd hm hpass hts hfut
    have hcell : ∀ i, formatCell dataset traj data true i 0 = .error .notImplemented := by
      intro i
      have hl0 : 0 < data.fut_data.length := by omega
      have h0 : (data.fut_data)[0]? = some (data.fut_data.getD 0 []) := by
        rw [List.getElem?_eq_getElem hl0, List.getD_eq_getElem _ _ hl0]
      unfold formatCell
      simp only [if_true, h0]
      simp [eq_false hd, hsdd]
    have hproceed : ∀ i,
        tryMap (fun j => formatCell dataset traj data true i j) (List.range timesteps)
          = .error .notImplemented := by
      intro i
      obtain ⟨k, hk⟩ : ∃ k, timesteps = k + 1 := ⟨timesteps - 1, by omega⟩
      rw [hk, List.range_succ_eq_map]
      simp [tryMap, hcell i]
    have hloop : formatLoop dataset traj data true timesteps = .error .notImplemented := by
      unfold formatLoop
      apply tryFoldl_error_skip
      · intro s i hi
        cases hmask : data.pred_mask with
        | none => exact Or.inr (by simp [formatStep, hmask, hproceed i])
        | some m =>
          have hi' : i < data.valid_id.length := List.mem_range.mp hi
          have hlt : i < m.length := lt_of_lt_of_le hi' (hm m hmask)
          have hsome : (m[i]? : Option ℚ) = some (m.getD i 0) := by
            rw [List.getElem?_eq_getElem hlt, List.getD_eq_getElem m 0 hlt]
          by_cases hv : m.getD i 0 = 1
          · refine Or.inr ?_
            unfold formatStep
            simp only [hmask, hsome, hv]
            norm_num [hproceed i]
          · refine Or.inl ?_
            unfold formatStep
            simp only [hmask, hsome, decide_eq_true hv]
      · rcases hpass with ⟨i, hi, hpass⟩
        refine ⟨i, List.mem_range.mpr hi, fun s => ?_⟩
        cases hmask : data.pred_mask with
        | none => simp [formatStep, hmask, hproceed i]
        | some m =>
          have hlt : i < m.length := lt_of_lt_of_le hi (hm m hmask)
          have hsome : (m[i]? : Option ℚ) = some (m.getD i 0) := by
            rw [List.getElem?_eq_getElem hlt, List.getD_eq_getElem m 0 hlt]
          unfold formatStep
          simp only [hmask, hsome, hpass m hmask]
          norm_num [hproceed i]
    simp [formatAgentformerTrajectories, hloop]
  · intro t h1 h2
    simp [configureScheduler, h1, h2]

/-- C5, witness: the dataset `nuscenes` with one unmasked agent and one
timestep hits `NotImplementedError`, and the scheduler type `cosine` is
rejected. -/
theorem claim_C5_witness :
    (("nuscenes" : String) ∉ ethBranchDatasets ∧
      strContains "nuscenes" "sdd" = false ∧
      formatAgentformerTrajectories [[((0 : ℚ), (0 : ℚ))]]
          ⟨[7], none, [[[0, 7]]], []⟩ "nuscenes" 1 10 true = .error .notImplemented) ∧
    configureScheduler "cosine" = .error .unknownScheduler := by
  refine ⟨⟨by decide, by decide, ?_⟩, ?_⟩
  · exact claim_C5.1 [[((0 : ℚ), (0 : ℚ))]] ⟨[7], none, [[[0, 7]]], []⟩ "nuscenes" 1 10
      (by decide) (by decide) (fun m h => by cases h)
      ⟨0, by decide, fun m h => by cases h⟩ (by decide) (by decide)
  · exact claim_C5.2 "cosine" (by decide) (by decide)

/-- C9: with an empty `valid_id`, or a `pred_mask` that filters out
every agent, `format_agentformer_trajectories` returns the empty array
for any dataset name without reaching the dataset dispatch. -/
theorem claim_C9 (traj : List (List (ℚ × ℚ))) (data : SeqData) (dataset : String)
    (timesteps : ℕ) (fs : ℚ) (future : Bool)
    (h : data.valid_id = [] ∨ ∃ m, data.pred_mask = some m ∧
      data.valid_id.length ≤ m.length ∧
      ∀ i, i < data.valid_id.length → m.getD i 0 ≠ 1) :
    formatAgentformerTrajectories traj data dataset timesteps fs future = .ok [] := by
  have hloop : formatLoop dataset
      (if future then traj else (traj.map List.reverse).reverse) data future timesteps
      = .ok [] := by
    rcases h with h | ⟨m, hmask, hlen, hall⟩
    · unfold formatLoop
      rw [h]
      rfl
    · unfold formatLoop
      have hstep : ∀ (s : List (List ℚ)) (i : ℕ), i ∈ List.range data.valid_id.length →
          formatStep dataset (if future then traj else (traj.map List.reverse).reverse)
            data future timesteps s i = Except.ok s := by
        intro s i hi
        have hi' : i < data.valid_id.length := List.mem_range.mp hi
        have hlt : i < m.length := lt_of_lt_of_le hi' hlen
        have hsome : (m[i]? : Option ℚ) = some (m.getD i 0) := by
          rw [List.getElem?_eq_getElem hlt, List.getD_eq_getElem m 0 hlt]
        unfold formatStep
        simp only [hmask, hsome, decide_eq_true (hall i hi')]
      rw [tryFoldl_ok_of_all (g := fun s _ => s) (List.range data.valid_id.length) [] hstep,
        foldl_const]
  cases hf : future <;>
    simp [formatAgentformerTrajectories, hf] at hloop ⊢ <;>
    simp [hloop]

/-- C9, witness: two agents both masked out yield the empty result on
the `eth` dataset. -/
theorem claim_C9_witness :
    formatAgentformerTrajectories [[((1 : ℚ), (1 : ℚ))]]
        ⟨[3, 4], some [0, 5], [], []⟩ "eth" 12 10 true = .ok [] :=
  claim_C9 _ _ "eth" 12 10 true
    (Or.inr ⟨[0, 5], rfl, by decide, by decide⟩)

theorem minLen_const {α : Type} (K : ℕ) :
    ∀ ls : List (List α), ls ≠ [] → (∀ l ∈ ls, l.length = K) → minLen ls = K := by
  intro ls
  induction ls with
  | nil => intro h; exact absurd rfl h
  | cons l ls ih =>
    intro _ hall
    cases ls with
    | nil => simpa [minLen] using hall l (by simp)
    | cons l2 rest =>
      have h1 : l.length = K := hall l (by simp)
      have h2 : minLen (l2 :: rest) = K :=
        ih (by simp) (fun x hx => hall x (List.mem_cons_of_mem l hx))
      simp [minLen, h1, h2]

/-- C1: on a non-empty output list whose sequences all evaluate
successfully (to metric rows as long as the key list), `_epoch_end`
returns one aggregate per metric key: the unweighted mean of the
per-sequence values for keys containing `_joint` or `CR`, and the
agent-count-weighted values divided by the total agent count for all
other keys. -/
theorem claim_C1 (E : Type)
    (eval1 : List (List (List (ℚ × ℚ))) → List (List (ℚ × ℚ)) → ℚ → Bool → Except E EvalOut)
    (statsKeys : List String) (mp : Bool) (nw : ℕ) (viz : Bool) (rad : ℚ)
    (outputs : List StepOut) (ms : List EvalOut)
    (hne : outputs ≠ [])
    (hok : tryMap (fun p => eval1 p.1 p.2 rad viz)
        (outputs.map (fun o => (o.pred_motion, o.gt_motion))) = .ok ms)
    (hlen : ∀ m ∈ ms, m.metrics.length = statsKeys.length) :
    ∃ results, epochEnd eval1 statsKeys mp nw viz rad outputs = .ok results ∧
      results.length = statsKeys.length ∧
      ∀ k, k < statsKeys.length →
        results.getD k ("", 0) =
          (statsKeys.getD k "",
            if strContains (statsKeys.getD k "") "_joint"
                || strContains (statsKeys.getD k "") "CR" then
              specUnweightedMean (ms.map (fun m => m.metrics.getD k 0))
            else
              specAgentWeightedMean (ms.map (fun m => m.metrics.getD k 0))
                (outputs.map (fun o => (o.gt_motion.length : ℚ)))) := by
  have hmslen : ms.length = outputs.length := by
    simpa using tryMap_ok_length hok
  have hmsne : ms ≠ [] := by
    intro h
    subst h
    exact hne (List.eq_nil_of_length_eq_zero hmslen.symm)
  obtain ⟨m0, ms', rfl⟩ : ∃ m0 ms', ms = m0 :: ms' := by
    cases ms with
    | nil => exact absurd rfl hmsne
    | cons a b => exact ⟨a, b, rfl⟩
  have hmin : minLen ((m0 :: ms').map EvalOut.metrics) = statsKeys.length :=
    minLen_const _ _ (by simp)
      (by
        intro l hl
        rcases List.mem_map.mp hl with ⟨m, hm, rfl⟩
        exact hlen m hm)
  have heq : epochEnd eval1 statsKeys mp nw viz rad outputs =
      .ok ((statsKeys.zip (zipStar ((m0 :: ms').map EvalOut.metrics))).map (fun kv =>
        (kv.1,
          if strContains kv.1 "_joint" || strContains kv.1 "CR" then
            kv.2.sum / (kv.2.length : ℚ)
          else
            (List.zipWith (fun v n => v * n) kv.2
              (outputs.map (fun o => (o.gt_motion.length : ℚ)))).sum
              / (outputs.map (fun o => (o.gt_motion.length : ℚ))).sum))) := by
    unfold epochEnd
    cases mp <;> simp [poolStarmap_eq_tryMap, hok]
  have hvals : ∀ k, k < statsKeys.length →
      (zipStar ((m0 :: ms').map EvalOut.metrics))[k]?
        = some (((m0 :: ms').map EvalOut.metrics).map (fun l => l.getD k 0)) := by
    intro k hk
    unfold zipStar
    rw [List.getElem?_map, List.getElem?_range (by rw [hmin]; exact hk)]
    rfl
  have hzlen : (zipStar ((m0 :: ms').map EvalOut.metrics)).length = statsKeys.length := by
    unfold zipStar
    rw [List.length_map, List.length_range, hmin]
  refine ⟨_, heq, ?_, ?_⟩
  · rw [List.length_map, List.length_zip, hzlen, Nat.min_self]
  · intro k hk
    have hzip : ((statsKeys.zip (zipStar ((m0 :: ms').map EvalOut.metrics))))[k]?
        = some (statsKeys[k],
            ((m0 :: ms').map EvalOut.metrics).map (fun l => l.getD k 0)) := by
      rw [List.getElem?_zip_eq_some]
      exact ⟨List.getElem?_eq_getElem hk, hvals k hk⟩
    rw [List.getD_eq_getElem?_getD, List.getElem?_map, hzip]
    simp only [Option.map_some, Option.getD_some, List.map_map]
    rw [List.getD_eq_getElem statsKeys "" hk]
    rfl

/-- C1, witness: two sequences with 1 and 3 agents, keys `ADE` and
`ADE_joint`: `ADE` aggregates to the agent-weighted mean and
`ADE_joint` to the unweighted mean. -/
theorem claim_C1_witness :
    ∃ results,
      epochEnd
          (fun _ g _ _ =>
            (Except.ok ⟨[(g.length : ℚ), 5], [], [], []⟩ : Except Unit EvalOut))
          ["ADE", "ADE_joint"] false 2 false 1
          [⟨0, "a", [], [[((0 : ℚ), (0 : ℚ))]], []⟩,
           ⟨1, "b", [], [[(0, 0)], [(0, 0)], [(0, 0)]], []⟩] = .ok results ∧
        results.length = 2 ∧
        ∀ k, k < 2 →
          results.getD k ("", 0) =
            ((["ADE", "ADE_joint"] : List String).getD k "",
              if strContains ((["ADE", "ADE_joint"] : List String).getD k "") "_joint"
                  || strContains ((["ADE", "ADE_joint"] : List String).getD k "") "CR" then
                specUnweightedMean
                  (([⟨[1, 5], [], [], []⟩, ⟨[3, 5], [], [], []⟩] : List EvalOut).map
                    (fun m => m.metrics.getD k 0))
              else
                specAgentWeightedMean
                  (([⟨[1, 5], [], [], []⟩, ⟨[3, 5], [], [], []⟩] : List EvalOut).map
                    (fun m => m.metrics.getD k 0))
                  (([⟨0, "a", [], [[((0 : ℚ), (0 : ℚ))]], []⟩,
                     ⟨1, "b", [], [[(0, 0)], [(0, 0)], [(0, 0)]], []⟩] : List StepOut).map
                    (fun o => (o.gt_motion.length : ℚ)))) :=
  claim_C1 Unit _ ["ADE", "ADE_joint"] false 2 false 1 _
    [⟨[1, 5], [], [], []⟩, ⟨[3, 5], [], [], []⟩]
    (by simp)
    (by norm_num [tryMap])
    (by
      intro m hm
      simp only [List.mem_cons, List.not_mem_nil, or_false] at hm
      rcases hm with hm | hm <;> subst hm <;> rfl)

theorem getD_set_self (l : List ℚ) (i : ℕ) (a d : ℚ) (h : i < l.length) :
    (l.set i a).getD i d = a := by
  simp [List.getD, List.getElem?_set, h]

theorem getD_set_ne (l : List ℚ) (i j : ℕ) (a d : ℚ) (h : i ≠ j) :
    (l.set i a).getD j d = l.getD j d := by
  simp [List.getD, List.getElem?_set, h]

/-- Shared loop computation: with a well-formed batch and exactly one
width-`W` matching source row per kept agent and timestep, the agent
loop produces, in order, the matching rows with the prediction written
into the branch's two columns (13/15 for the first dispatch branch,
2/3 for the `sdd` branch). -/
theorem formatLoop_cols (traj : List (List (ℚ × ℚ))) (data : SeqData) (dataset : String)
    (timesteps : ℕ) (c1 c2 W : ℕ)
    (hbranch : (dataset ∈ ethBranchDatasets ∧ c1 = 13 ∧ c2 = 15) ∨
      (dataset ∉ ethBranchDatasets ∧ strContains dataset "sdd" = true ∧ c1 = 2 ∧ c2 = 3))
    (hmask : ∀ m, data.pred_mask = some m → data.valid_id.length ≤ m.length)
    (htraj : data.valid_id.length ≤ traj.length)
    (htlen : ∀ row ∈ traj, timesteps ≤ row.length)
    (hfut : timesteps ≤ data.fut_data.length)
    (hc1 : c1 < W) (hc2 : c2 < W)
    (hmatch : ∀ i, i < data.valid_id.length → maskKeep data.pred_mask i = true →
      ∀ j, j < timesteps → ∃ row, matchedFutRows data i j = [row] ∧ row.length = W) :
    formatLoop dataset traj data true timesteps =
      .ok ((((List.range data.valid_id.length).filter (maskKeep data.pred_mask)).map
        (fun i => (List.range timesteps).map (fun j =>
          (((matchedFutRows data i j).getD 0 []).set c1
            ((traj.getD i []).getD j (0, 0)).1).set c2
            ((traj.getD i []).getD j (0, 0)).2))).flatten) := by
  have hcell : ∀ i, i < data.valid_id.length → maskKeep data.pred_mask i = true →
      ∀ j, j < timesteps →
      formatCell dataset traj data true i j =
        .ok ((((matchedFutRows data i j).getD 0 []).set c1
              ((traj.getD i []).getD j (0, 0)).1).set c2
              ((traj.getD i []).getD j (0, 0)).2) := by
    intro i hi hk j hj
    obtain ⟨row, hrow, hrlen⟩ := hmatch i hi hk j hj
    have hj' : j < data.fut_data.length := lt_of_lt_of_le hj hfut
    have hsrc : (data.fut_data)[j]? = some (data.fut_data.getD j []) := by
      rw [List.getElem?_eq_getElem hj', List.getD_eq_getElem _ _ hj']
    have hti : traj[i]? = some (traj.getD i []) := by
      have hi2 : i < traj.length := lt_of_lt_of_le hi htraj
      rw [List.getElem?_eq_getElem hi2, List.getD_eq_getElem _ _ hi2]
    have htj : (traj.getD i [])[j]? = some ((traj.getD i []).getD j (0, 0)) := by
      have hi2 : i < traj.length := lt_of_lt_of_le hi htraj
      have hmem : traj.getD i [] ∈ traj := by
        rw [List.getD_eq_getElem _ _ hi2]
        exact List.getElem_mem hi2
      have hj2 : j < (traj.getD i []).length := lt_of_lt_of_le hj (htlen _ hmem)
      rw [List.getElem?_eq_getElem hj2, List.getD_eq_getElem _ _ hj2]
    have hC1 : c1 < row.length := by omega
    have hC2 : c2 < row.length := by omega
    unfold formatCell
    simp only [if_true, hsrc]
    rw [show (data.fut_data.getD j []).filter
        (fun r => decide (r.getD 1 0 = data.valid_id.getD i 0))
        = matchedFutRows data i j from rfl]
    rw [hrow]
    rcases hbranch with ⟨hdb, hc1e, hc2e⟩ | ⟨hdb, hsdd, hc1e, hc2e⟩
    · subst hc1e
      subst hc2e
      simp only [hdb, if_true, hti, Option.some_bind, htj]
      simp [setCols, hC1, hC2, hrow]
    · subst hc1e
      subst hc2e
      simp only [eq_false hdb, if_false, hsdd, if_true, hti, Option.some_bind, htj]
      simp [setCols, hC1, hC2, hrow]
  have hstep : ∀ (acc : List (List ℚ)) (i : ℕ), i ∈ List.range data.valid_id.length →
      formatStep dataset traj data true timesteps acc i =
        .ok (if maskKeep data.pred_mask i then
          acc ++ (List.range timesteps).map (fun j =>
            (((matchedFutRows data i j).getD 0 []).set c1
              ((traj.getD i []).getD j (0, 0)).1).set c2
              ((traj.getD i []).getD j (0, 0)).2)
        else acc) := by
    intro acc i hi
    have hi' : i < data.valid_id.length := List.mem_range.mp hi
    cases hmcase : data.pred_mask with
    | none =>
      have hk : maskKeep data.pred_mask i = true := by simp [maskKeep, hmcase]
      have hmap := tryMap_ok_of_all
        (f := fun j => formatCell dataset traj data true i j)
        (g := fun j =>
          (((matchedFutRows data i j).getD 0 []).set c1
            ((traj.getD i []).getD j (0, 0)).1).set c2
            ((traj.getD i []).getD j (0, 0)).2)
        (List.range timesteps)
        (fun j hj => hcell i hi' hk j (List.mem_range.mp hj))
      unfold formatStep
      simp only [hmcase, hmap]
      simp [maskKeep]
    | some m =>
      have hlt : i < m.length := lt_of_lt_of_le hi' (hmask m hmcase)
      have hsome : (m[i]? : Option ℚ) = some (m.getD i 0) := by
        rw [List.getElem?_eq_getElem hlt, List.getD_eq_getElem m 0 hlt]
      by_cases hv : m.getD i 0 = 1
      · have hk : maskKeep data.pred_mask i = true := by
          rw [hmcase]
          exact decide_eq_true hv
        have hmap := tryMap_ok_of_all
          (f := fun j => formatCell dataset traj data true i j)
          (g := fun j =>
            (((matchedFutRows data i j).getD 0 []).set c1
              ((traj.getD i []).getD j (0, 0)).1).set c2
              ((traj.getD i []).getD j (0, 0)).2)
          (List.range timesteps)
          (fun j hj => hcell i hi' hk j (List.mem_range.mp hj))
        have hk2 : maskKeep (some m) i = true := decide_eq_true hv
        have hskip : (decide (¬ m.getD i 0 = 1)) = false := decide_eq_false (not_not_intro hv)
        unfold formatStep
        simp only [hmcase, hsome, hskip, hmap, hk2, if_true]
      · have hk2 : maskKeep (some m) i = false := decide_eq_false hv
        unfold formatStep
        simp only [hmcase, hsome, decide_eq_true hv, hk2]
        simp
  unfold formatLoop
  rw [tryFoldl_ok_of_all (List.range data.valid_id.length) [] hstep,
    foldl_filter_flatten]
  simp

/-- C4: dataset-specific column indexing of
`format_agentformer_trajectories`, with well-formed inputs (mask and
trajectory long enough, exactly one width-`W` matching source row per
kept agent and timestep).  On the five ETH/UCY datasets (`W ≥ 16`) the
result rows are exactly the four columns
`[frame_id * frame_scale, track_id, x, y]`, the `(x, y)` being the
predicted position written into columns 13 and 15 of the matching
source row.  On every dataset name containing `sdd` (`W ≥ 4`) each
result row is the matching source row with the predicted position
written into columns 2 and 3 (with the frame column additionally
scaled when the dataset is exactly `trajnet_sdd`). -/
theorem claim_C4 :
    (∀ (traj : List (List (ℚ × ℚ))) (data : SeqData) (dataset : String)
        (timesteps : ℕ) (fs : ℚ) (W : ℕ),
      dataset ∈ ethSelectDatasets →
      (∀ m, data.pred_mask = some m → data.valid_id.length ≤ m.length) →
      data.valid_id.length ≤ traj.length →
      (∀ row ∈ traj, timesteps ≤ row.length) →
      timesteps ≤ data.fut_data.length →
      16 ≤ W →
      (∀ i, i < data.valid_id.length → maskKeep data.pred_mask i = true →
        ∀ j, j < timesteps → ∃ row, matchedFutRows data i j = [row] ∧ row.length = W) →
      formatAgentformerTrajectories traj data dataset timesteps fs true =
        .ok ((((List.range data.valid_id.length).filter (maskKeep data.pred_mask)).map
          (fun i => (List.range timesteps).map (fun j =>
            [((matchedFutRows data i j).getD 0 []).getD 0 0 * fs,
             ((matchedFutRows data i j).getD 0 []).getD 1 0,
             ((traj.getD i []).getD j (0, 0)).1,
             ((traj.getD i []).getD j (0, 0)).2]))).flatten)) ∧
    (∀ (traj : List (List (ℚ × ℚ))) (data : SeqData) (dataset : String)
        (timesteps : ℕ) (fs : ℚ) (W : ℕ),
      strContains dataset "sdd" = true →
      (∀ m, data.pred_mask = some m → data.valid_id.length ≤ m.length) →
      data.valid_id.length ≤ traj.length →
      (∀ row ∈ traj, timesteps ≤ row.length) →
      timesteps ≤ data.fut_data.length →
      4 ≤ W →
      (∀ i, i < data.valid_id.length → maskKeep data.pred_mask i = true →
        ∀ j, j < timesteps → ∃ row, matchedFutRows data i j = [row] ∧ row.length = W) →
      formatAgentformerTrajectories traj data dataset timesteps fs true =
        .ok ((((List.range data.valid_id.length).filter (maskKeep data.pred_mask)).map
          (fun i => (List.range timesteps).map (fun j =>
            if dataset = "trajnet_sdd" then
              match (((matchedFutRows data i j).getD 0 []).set 2
                  ((traj.getD i []).getD j (0, 0)).1).set 3
                  ((traj.getD i []).getD j (0, 0)).2 with
              | [] => ([] : List ℚ)
              | c0 :: cs => (c0 * fs) :: cs
            else
              (((matchedFutRows data i j).getD 0 []).set 2
                ((traj.getD i []).getD j (0, 0)).1).set 3
                ((traj.getD i []).getD j (0, 0)).2))).flatten)) := by
  have hsub : ∀ x ∈ ethSelectDatasets, x ∈ ethBranchDatasets := by decide
  constructor
  · intro traj data dataset timesteps fs W hds hmask htraj htlen hfut hW hmatch
    have hdb : dataset ∈ ethBranchDatasets := hsub dataset hds
    have hloop := formatLoop_cols traj data dataset timesteps 13 15 W
      (Or.inl ⟨hdb, rfl, rfl⟩) hmask htraj htlen hfut (by omega) (by omega) hmatch
    have hwidth : ∀ i ∈ (List.range data.valid_id.length).filter (maskKeep data.pred_mask),
        ∀ j ∈ List.range timesteps,
        ((((matchedFutRows data i j).getD 0 []).set 13
          ((traj.getD i []).getD j (0, 0)).1).set 15
          ((traj.getD i []).getD j (0, 0)).2).length = W := by
      intro i hi j hj
      rcases List.mem_filter.mp hi with ⟨hir, hik⟩
      obtain ⟨row, hrow, hrlen⟩ :=
        hmatch i (List.mem_range.mp hir) hik j (List.mem_range.mp hj)
      rw [hrow]
      simpa using hrlen
    unfold formatAgentformerTrajectories
    simp only [if_true, hloop]
    cases hFM : (((List.range data.valid_id.length).filter (maskKeep data.pred_mask)).map
        (fun i => (List.range timesteps).map (fun j =>
          (((matchedFutRows data i j).getD 0 []).set 13
            ((traj.getD i []).getD j (0, 0)).1).set 15
            ((traj.getD i []).getD j (0, 0)).2))).flatten with
    | nil =>
      have hnil : ∀ L ∈ ((List.range data.valid_id.length).filter
          (maskKeep data.pred_mask)).map
          (fun i => (List.range timesteps).map (fun j =>
            (((matchedFutRows data i j).getD 0 []).set 13
              ((traj.getD i []).getD j (0, 0)).1).set 15
              ((traj.getD i []).getD j (0, 0)).2)), L = [] :=
        List.flatten_eq_nil_iff.mp hFM
      have hspec : (((List.range data.valid_id.length).filter
          (maskKeep data.pred_mask)).map
          (fun i => (List.range timesteps).map (fun j =>
            [((matchedFutRows data i j).getD 0 []).getD 0 0 * fs,
             ((matchedFutRows data i j).getD 0 []).getD 1 0,
             ((traj.getD i []).getD j (0, 0)).1,
             ((traj.getD i []).getD j (0, 0)).2]))).flatten = [] := by
        rw [List.flatten_eq_nil_iff]
        intro L hL
        rcases List.mem_map.mp hL with ⟨i, hi, rfl⟩
        have h1 := hnil _ (List.mem_map_of_mem _ hi)
        have h2 : List.range timesteps = [] := (List.map_eq_nil_iff).mp h1
        rw [h2]
        rfl
      rw [hspec]
    | cons first rest =>
      have hallW : ∀ r ∈ first :: rest, r.length = W := by
        rw [← hFM]
        intro r hr
        rcases List.mem_flatten.mp hr with ⟨L, hL, hrL⟩
        rcases List.mem_map.mp hL with ⟨i, hi, rfl⟩
        rcases List.mem_map.mp hrL with ⟨j, hj, rfl⟩
        exact hwidth i hi j hj
      have hfw : first.length = W := hallW first (by simp)
      have hall : (rest.all (fun r => r.length = first.length)) = true := by
        rw [List.all_eq_true]
        intro r hr
        exact decide_eq_true (by rw [hallW r (by simp [hr]), hfw])
      simp only [hall, if_true, hds]
      rw [← hFM, List.map_flatten, List.map_map]
      refine congrArg Except.ok (congrArg List.flatten (List.map_congr_left ?_))
      intro i hi
      simp only [Function.comp_apply, List.map_map]
      refine List.map_congr_left ?_
      intro j hj
      simp only [Function.comp_apply]
      rcases List.mem_filter.mp hi with ⟨hir, hik⟩
      obtain ⟨row, hrow, hrlen⟩ :=
        hmatch i (List.mem_range.mp hir) hik j (List.mem_range.mp hj)
      have hA : (matchedFutRows data i j).getD 0 [] = row := by
        rw [hrow]
        rfl
      rw [hA]
      have h13 : (13 : ℕ) < row.length := by omega
      have h15 : (15 : ℕ) <
          (row.set 13 ((traj.getD i []).getD j (0, 0)).1).length := by
        rw [List.length_set]
        omega
      rw [getD_set_ne _ 15 0 _ _ (by omega), getD_set_ne _ 13 0 _ _ (by omega),
        getD_set_ne _ 15 1 _ _ (by omega), getD_set_ne _ 13 1 _ _ (by omega),
        getD_set_ne _ 15 13 _ _ (by omega), getD_set_self _ 13 _ _ h13,
        getD_set_self _ 15 _ _ h15]
  · intro traj data dataset timesteps fs W hsdd hmask htraj htlen hfut hW hmatch
    have hforall : ∀ x ∈ ethBranchDatasets, strContains x "sdd" = false := by decide
    have hnb : dataset ∉ ethBranchDatasets := by
      intro hmem
      rw [hforall dataset hmem] at hsdd
      exact Bool.noConfusion hsdd
    have hns : dataset ∉ ethSelectDatasets := fun hmem => hnb (hsub dataset hmem)
    have hloop := formatLoop_cols traj data dataset timesteps 2 3 W
      (Or.inr ⟨hnb, hsdd, rfl, rfl⟩) hmask htraj htlen hfut (by omega) (by omega) hmatch
    unfold formatAgentformerTrajectories
    simp only [if_true, hloop]
    cases hFM : (((List.range data.valid_id.length).filter (maskKeep data.pred_mask)).map
        (fun i => (List.range timesteps).map (fun j =>
          (((matchedFutRows data i j).getD 0 []).set 2
            ((traj.getD i []).getD j (0, 0)).1).set 3
            ((traj.getD i []).getD j (0, 0)).2))).flatten with
    | nil =>
      have hnil : ∀ L ∈ ((List.range data.valid_id.length).filter
          (maskKeep data.pred_mask)).map
          (fun i => (List.range timesteps).map (fun j =>
            (((matchedFutRows data i j).getD 0 []).set 2
              ((traj.getD i []).getD j (0, 0)).1).set 3
              ((traj.getD i []).getD j (0, 0)).2)), L = [] :=
        List.flatten_eq_nil_iff.mp hFM
      have hspec : (((List.range data.valid_id.length).filter
          (maskKeep data.pred_mask)).map
          (fun i => (List.range timesteps).map (fun j =>
            if dataset = "trajnet_sdd" then
              match (((matchedFutRows data i j).getD 0 []).set 2
                  ((traj.getD i []).getD j (0, 0)).1).set 3
                  ((traj.getD i []).getD j (0, 0)).2 with
              | [] => ([] : List ℚ)
              | c0 :: cs => (c0 * fs) :: cs
            else
              (((matchedFutRows data i j).getD 0 []).set 2
                ((traj.getD i []).getD j (0, 0)).1).set 3
                ((traj.getD i []).getD j (0, 0)).2))).flatten = [] := by
        rw [List.flatten_eq_nil_iff]
        intro L hL
        rcases List.mem_map.mp hL with ⟨i, hi, rfl⟩
        have h1 := hnil _ (List.mem_map_of_mem _ hi)
        have h2 : List.range timesteps = [] := (List.map_eq_nil_iff).mp h1
        rw [h2]
        rfl
      rw [hspec]
    | cons first rest =>
      have hwidth : ∀ i ∈ (List.range data.valid_id.length).filter (maskKeep data.pred_mask),
          ∀ j ∈ List.range timesteps,
          ((((matchedFutRows data i j).getD 0 []).set 2
            ((traj.getD i []).getD j (0, 0)).1).set 3
            ((traj.getD i []).getD j (0, 0)).2).length = W := by
        intro i hi j hj
        rcases List.mem_filter.mp hi with ⟨hir, hik⟩
        obtain ⟨row, hrow, hrlen⟩ :=
          hmatch i (List.mem_range.mp hir) hik j (List.mem_range.mp hj)
        rw [hrow]
        simpa using hrlen
      have hallW : ∀ r ∈ first :: rest, r.length = W := by
        rw [← hFM]
        intro r hr
        rcases List.mem_flatten.mp hr with ⟨L, hL, hrL⟩
        rcases List.mem_map.mp hL with ⟨i, hi, rfl⟩
        rcases List.mem_map.mp hrL with ⟨j, hj, rfl⟩
        exact hwidth i hi j hj
      have hfw : first.length = W := hallW first (by simp)
      have hall : (rest.all (fun r => r.length = first.length)) = true := by
        rw [List.all_eq_true]
        intro r hr
        exact decide_eq_true (by rw [hallW r (by simp [hr]), hfw])
      simp only [hall, if_true, eq_false hns, if_false]
      by_cases hts : dataset = "trajnet_sdd"
      · subst hts
        rw [if_pos rfl, ← hFM, List.map_flatten, List.map_map]
        refine congrArg Except.ok (congrArg List.flatten (List.map_congr_left ?_))
        intro i hi
        simp only [Function.comp_apply, List.map_map]
        refine List.map_congr_left ?_
        intro j hj
        simp only [Function.comp_apply, if_pos rfl]
        cases (((matchedFutRows data i j).getD 0 []).set 2
            ((traj.getD i []).getD j (0, 0)).1).set 3
            ((traj.getD i []).getD j (0, 0)).2 <;> rfl
      · rw [if_neg hts]
        simp only [if_neg hts]
        rw [← hFM]

/-- C4, witness: one agent with track id 2, one timestep, one matching
width-17 source row with frame 10 and prediction `(7, 9)`: on `eth` the
output is the single four-column row `[100, 2, 7, 9]`; on
`trajnet_sdd` it is the full row with columns 2 and 3 overwritten and
the frame scaled. -/
theorem claim_C4_witness :
    (("eth" : String) ∈ ethSelectDatasets ∧
      formatAgentformerTrajectories [[((7 : ℚ), (9 : ℚ))]]
          ⟨[2], none, [[[10, 2, 0, 0, 0, 0, 0, 0, 0, 0, 0, 0, 0, 99, 0, 88, 0]]], []⟩
          "eth" 1 10 true = .ok [[100, 2, 7, 9]]) ∧
    (strContains "trajnet_sdd" "sdd" = true ∧
      formatAgentformerTrajectories [[((7 : ℚ), (9 : ℚ))]]
          ⟨[2], none, [[[10, 2, 0, 0, 0, 0, 0, 0, 0, 0, 0, 0, 0, 99, 0, 88, 0]]], []⟩
          "trajnet_sdd" 1 10 true
        = .ok [[100, 2, 7, 9, 0, 0, 0, 0, 0, 0, 0, 0, 0, 99, 0, 88, 0]]) := by
  constructor
  · refine ⟨by decide, ?_⟩
    have h := claim_C4.1 [[((7 : ℚ), (9 : ℚ))]]
      ⟨[2], none, [[[10, 2, 0, 0, 0, 0, 0, 0, 0, 0, 0, 0, 0, 99, 0, 88, 0]]], []⟩
      "eth" 1 10 17 (by decide) (fun m hm => nomatch hm) (by decide) (by decide)
      (by decide) (by decide)
      (fun i hi hk j hj => by
        have hi1 : i < 1 := by simpa using hi
        have hi0 : i = 0 := by omega
        have hj0 : j = 0 := by omega
        subst hi0
        subst hj0
        exact ⟨[10, 2, 0, 0, 0, 0, 0, 0, 0, 0, 0, 0, 0, 99, 0, 88, 0], by decide, by decide⟩)
    rw [h]
    refine congrArg Except.ok ?_
    norm_num [matchedFutRows, maskKeep, List.range_succ, List.filter_cons, List.filter_nil]
  · refine ⟨by decide, ?_⟩
    have h := claim_C4.2 [[((7 : ℚ), (9 : ℚ))]]
      ⟨[2], none, [[[10, 2, 0, 0, 0, 0, 0, 0, 0, 0, 0, 0, 0, 99, 0, 88, 0]]], []⟩
      "trajnet_sdd" 1 10 17 (by decide) (fun m hm => nomatch hm) (by decide) (by decide)
      (by decide) (by decide)
      (fun i hi hk j hj => by
        have hi1 : i < 1 := by simpa using hi
        have hi0 : i = 0 := by omega
        have hj0 : j = 0 := by omega
        subst hi0
        subst hj0
        exact ⟨[10, 2, 0, 0, 0, 0, 0, 0, 0, 0, 0, 0, 0, 99, 0, 88, 0], by decide, by decide⟩)
    rw [h]
    refine congrArg Except.ok ?_
    norm_num [matchedFutRows, maskKeep, List.range_succ, List.filter_cons, List.filter_nil,
      List.set_cons_zero, List.set_cons_succ]

/-- C10: `_save_viz` insists every zipped output's observed trajectory
has exactly 8 timesteps; with outputs and sample values of equal length,
any output with a different observed length aborts the visualization:
no plot-argument list is produced. -/
theorem claim_C10 (gms : List (String × List ℚ) → ℕ → String)
    (modelName : String) (epoch : ℕ) (datasetName tag : String)
    (outputs : List StepOut) (svs : List (List (String × List ℚ)))
    (argmins : List (List ℕ)) (cms : List (List CollMat))
    (hlen : outputs.length = svs.length)
    (hbad : ∃ o ∈ outputs, o.obs_motion.length ≠ 8) :
    ∀ r, saveViz gms modelName epoch datasetName tag outputs svs argmins cms ≠ .ok r := by
  have key : ∀ (l : List (StepOut × List (String × List ℚ))) (n : ℕ),
      (∃ p ∈ l, p.1.obs_motion.length ≠ 8) →
      ∀ r, saveVizLoop gms modelName epoch datasetName tag argmins cms n l ≠ .ok r := by
    intro l
    induction l with
    | nil =>
      intro n h
      rcases h with ⟨p, hp, _⟩
      exact absurd hp (by simp)
    | cons q rest ih =>
      intro n h r
      rcases h with ⟨p, hp, hpl⟩
      unfold saveVizLoop
      rcases List.mem_cons.mp hp with hq | hq
      · subst hq
        have hproc : processOneViz gms modelName epoch datasetName tag argmins cms n p.1 p.2
            = .error .assertionFailed := by
          unfold processOneViz
          simp [hpl]
        rw [hproc]
        simp
      · cases hpv : processOneViz gms modelName epoch datasetName tag argmins cms n q.1 q.2 with
        | error e => simp
        | ok a =>
          cases hrec : saveVizLoop gms modelName epoch datasetName tag argmins cms (n + 1) rest with
          | error e => simp [hrec]
          | ok bs => exact absurd hrec (ih (n + 1) ⟨p, hq, hpl⟩ bs)
  rcases hbad with ⟨o, ho, hol⟩
  obtain ⟨k, hk, hko⟩ := List.mem_iff_getElem.mp ho
  have hk2 : k < svs.length := hlen ▸ hk
  have hzip : (outputs.zip svs)[k]? = some (outputs[k], svs[k]) := by
    simp [List.getElem?_zip_eq_some, List.getElem?_eq_getElem, hk, hk2]
  have hmem : (outputs[k], svs[k]) ∈ outputs.zip svs := List.getElem?_mem hzip
  exact key (outputs.zip svs) 0 ⟨(outputs[k], svs[k]), hmem, by simpa [hko] using hol⟩

/-- C10, witness: a single output whose observed trajectory is empty
(length 0, not 8) makes `_save_viz` fail. -/
theorem claim_C10_witness :
    ([(⟨0, "s", [], [], []⟩ : StepOut)].length
        = ([[("ADE", [1])]] : List (List (String × List ℚ))).length) ∧
      (∃ o ∈ [(⟨0, "s", [], [], []⟩ : StepOut)], o.obs_motion.length ≠ 8) ∧
      ∀ r, saveViz (fun _ _ => "") "m" 0 "d" "t"
          [⟨0, "s", [], [], []⟩] [[("ADE", [1])]] [] [] ≠ .ok r :=
  ⟨rfl, ⟨⟨0, "s", [], [], []⟩, by simp, by decide⟩,
   claim_C10 (fun _ _ => "") "m" 0 "d" "t" _ _ [] [] rfl
     ⟨⟨0, "s", [], [], []⟩, by simp, by decide⟩⟩

end Trainer
